import Mathlib

/-!
Verification development for the docker-fs resource-to-filesystem projection
engine (source files `src/docker_context.py` and `src/docker_fuse_operations.py`).

Modelling conventions:
* Python strings are Lean `String`s; the Python string methods used by the
  source (`count`, `split` with `maxsplit`, `startswith`, slicing, `in`) are
  reproduced below as `str...` helpers working on the character list.
* Timestamps (results of `datetime.fromisoformat(...).timestamp()`) are
  modelled as natural numbers; only their order and maximum matter.
* Python dictionaries are association lists with Python's insert-or-overwrite
  assignment (`setKey`) and key lookup (`lookupKey` / `hasKey`).
* The docker engine (an external collaborator) is an explicit `Engine` record:
  the three `client.<cat>.list(...)` results, the three `collection.get`
  lookups, and the `api.df()` payload.
* Uncaught Python exceptions are explicit error values of `FsError`
  (`FuseOSError(ENOENT)`, `AssertionError`, `AttributeError`, `ValueError`,
  `IndexError`), and fallible operations return `Except FsError`.
-/

/-- Python `s.count(c)` for a one-character needle. -/
def strCount (s : String) (c : Char) : Nat := s.toList.count c

/-- Python `c in s` for a single character. -/
def strContains (s : String) (c : Char) : Bool := s.toList.contains c

/-- Python `s.startswith(p)`. -/
def strStartsWith (s p : String) : Bool := p.toList.isPrefixOf s.toList

/-- Python `s[-1] == '/'` on a (nonempty) string. -/
def strEndsSlash (s : String) : Bool := s.toList.getLast? == some '/'

/-- Python `s[n:]` (character based, as in Python). -/
def strDrop (s : String) (n : Nat) : String := String.mk (s.toList.drop n)

/-- Python `len(s)`. -/
def strLen (s : String) : Nat := s.toList.length

/-- Python `t[:t.index('/')]`: everything before the first slash. -/
def strFirstSeg (s : String) : String := String.mk (s.toList.takeWhile (fun a => a != '/'))

/-- Python `l.split(c, maxsplit=n)` on the character list. -/
def splitMax : List Char → Char → Nat → List (List Char)
  | l, _, 0 => [l]
  | l, c, n + 1 =>
    if l.contains c then
      l.takeWhile (fun a => a != c) :: splitMax ((l.dropWhile (fun a => a != c)).drop 1) c n
    else [l]

/-- Python `s.split(c, maxsplit=n)`. -/
def strSplitMax (s : String) (c : Char) (n : Nat) : List String :=
  (splitMax s.toList c n).map String.mk

/-- Python `"../" * n`. -/
def ascend : Nat → String
  | 0 => ""
  | n + 1 => "../" ++ ascend n

/-- Python dict assignment `m[k] = v`: overwrite in place or append. -/
def setKey {α : Type} (m : List (String × α)) (k : String) (v : α) : List (String × α) :=
  if m.any (fun p => p.1 == k) then m.map (fun p => if p.1 == k then (k, v) else p)
  else m ++ [(k, v)]

/-- Python dict lookup `m[k]` / `m.get(k)`. -/
def lookupKey {α : Type} : List (String × α) → String → Option α
  | [], _ => none
  | p :: rest, k => if p.1 == k then some p.2 else lookupKey rest k

/-- Python `k in m` for a dict. -/
def hasKey {α : Type} (m : List (String × α)) (k : String) : Bool :=
  m.any (fun p => p.1 == k)

/-- Python truthy-`or` on optional integers (`a or b`, where `0`/missing are falsy). -/
def pyOrN (a b : Option Nat) : Option Nat :=
  match a with
  | some n => if n = 0 then b else some n
  | none => b

/-- Python truthy-`or` whose right operand is a plain value (`a or d`). -/
def orDefault (a : Option Nat) (d : Nat) : Nat :=
  match a with
  | some n => if n = 0 then d else n
  | none => d

section DockerFs

/-- A docker model (volume, image or container) as consumed by the source:
its `id`, `name`, `tags`, and the `attrs` fields the code reads
(`Created` / `CreatedAt` pre-parsed to a timestamp, `SizeRootFs`, `Size`). -/
structure DModel where
  id : String
  name : String := ""
  tags : List String := []
  created : Option Nat := none
  createdAt : Option Nat := none
  sizeRootFs : Option Nat := none
  size : Option Nat := none
deriving DecidableEq, Repr

/-- One entry of a section of the `api.df()` payload. -/
structure DfResource where
  id : String
  sizeRootFs : Option Nat := none
deriving DecidableEq, Repr

/-- The `api.df()` payload: the three sections the source might consult. -/
structure DfData where
  containers : Option (List DfResource) := none
  volumes : Option (List DfResource) := none
  images : Option (List DfResource) := none
deriving DecidableEq, Repr

/-- The docker engine boundary: list/get per category, plus the df payload.
`volumesList` is `client.volumes.list()`, `imagesList` is
`client.images.list(all=True)`, `containersList` is
`client.containers.list(all=True)`; the `...Get` functions are
`collection.get(name)` returning `none` on `docker.errors.NotFound`. -/
structure Engine where
  volumesList : List DModel
  imagesList : List DModel
  containersList : List DModel
  volumeGet : String → Option DModel
  imageGet : String → Option DModel
  containerGet : String → Option DModel
  df : DfData

/-- The mutable state of `DockerContext`: the three per-category symbolic-link
tables. -/
structure Ctx where
  volume_symlinks : List (String × String) := []
  image_symlinks : List (String × String) := []
  container_symlinks : List (String × String) := []
deriving DecidableEq, Repr

/-- Error outcomes: `ENOENT`/`EACCES` are raised `FuseOSError`s; the remaining
constructors are uncaught Python exceptions escaping the operation. -/
inductive FsError where
  | ENOENT
  | EACCES
  | attributeError
  | assertionError
  | valueError
  | indexError
deriving DecidableEq, Repr

/-- `DockerContext.ROOT_FOLDERS`. -/
def ROOT_FOLDERS : List String := ["volumes", "images", "containers"]

end DockerFs

/-- `DockerContext.readlink`: split the path into root, category and
tag, look the tag up in that category's symbolic-link table, and prepend one
`../` per `/` in the tag.  Any failure along the way (wrong shape, unknown
category, missing key) is caught and turned into `FuseOSError(ENOENT)`. -/
def readlink (ctx : Ctx) (name : String) : Except FsError String :=
  match strSplitMax name '/' 2 with
  | [root, model_type, name_or_tag] =>
    if root = "" then
      match (if model_type = "volumes" then some ctx.volume_symlinks
             else if model_type = "images" then some ctx.image_symlinks
             else if model_type = "containers" then some ctx.container_symlinks
             else none) with
      | some symlinks =>
        match lookupKey symlinks name_or_tag with
        | some dest_name =>
          let sub_dir_depth := strCount name_or_tag '/'
          .ok (if sub_dir_depth > 0 then ascend sub_dir_depth ++ dest_name else dest_name)
        | none => .error .ENOENT
      | none => .error .ENOENT
    else .error .ENOENT
  | _ => .error .ENOENT

/-- `sha256[7:]` after the conditional `sha256.startswith("sha256:")` strip
used by `readdir_volumes`. -/
def strip256 (id : String) : String :=
  if strStartsWith id "sha256:" then strDrop id 7 else id

/-- The names yielded by `readdir_volumes` for one volume: the name, then the
dotted identifier entry when it differs from the name. -/
def volumeEntries (v : DModel) : List String :=
  let sha256 := strip256 v.id
  if sha256 ≠ v.name then [v.name, "." ++ sha256] else [v.name]

/-- The complete name sequence of `readdir_volumes`. -/
def volumeNames : List DModel → List String
  | [] => []
  | v :: rest => volumeEntries v ++ volumeNames rest

/-- The symbolic-link table `readdir_volumes` leaves behind:
`syms[name] = '.' + sha256` for every volume whose stripped id differs from
its name. -/
def buildVolumeSyms (vols : List DModel) : List (String × String) :=
  vols.foldl
    (fun syms v =>
      let sha256 := strip256 v.id
      if sha256 ≠ v.name then setKey syms v.name ("." ++ sha256) else syms) []

/-- `readdir_volumes` as a state-passing operation (the generator is always
fully drained by `DockerOperations.readdir`, so the table replacement is
complete).  The `tag_prefix` argument of the Python function is ignored. -/
def readdir_volumes (eng : Engine) (ctx : Ctx) : Except FsError (List String) × Ctx :=
  (.ok (volumeNames eng.volumesList),
   { ctx with volume_symlinks := buildVolumeSyms eng.volumesList })

/-- The identifier entry of an image: `'.' + i.id[7:]` (the source asserts
`i.id.startswith("sha256:")` first; theorems about images carry that
well-formedness as a hypothesis). -/
def imageSha (i : DModel) : String := "." ++ strDrop i.id 7

/-- The per-tag emission of the full `readdir_images` listing, threading the
`sub_dirs` de-duplication set: a single-segment tag is yielded verbatim, a
slashed tag contributes its first segment at most once. -/
def tagEntries : List String → List String → List String × List String
  | [], sub_dirs => ([], sub_dirs)
  | t :: ts, sub_dirs =>
    if strContains t '/' then
      let next_level_dir := strFirstSeg t
      if next_level_dir ∈ sub_dirs then tagEntries ts sub_dirs
      else
        let r := tagEntries ts (next_level_dir :: sub_dirs)
        (next_level_dir :: r.1, r.2)
    else
      let r := tagEntries ts sub_dirs
      (t :: r.1, r.2)

/-- The name sequence of the full `readdir_images` listing: for each image the
identifier entry, then its tag entries (`sub_dirs` is shared across the whole
listing). -/
def imagesEntries : List DModel → List String → List String
  | [], _ => []
  | i :: rest, sub_dirs =>
    let r := tagEntries i.tags sub_dirs
    imageSha i :: (r.1 ++ imagesEntries rest r.2)

/-- `readdir_images` with no tag prefix: the emitted names. -/
def readdirImagesFull (imgs : List DModel) : List String := imagesEntries imgs []

/-- The symbolic-link table built by a full `readdir_images` pass:
`syms.update({t: sha for t in i.tags})` for every image. -/
def buildImageSyms (imgs : List DModel) : List (String × String) :=
  imgs.foldl (fun syms i => i.tags.foldl (fun syms t => setKey syms t (imageSha i)) syms) []

/-- The prefix normalisation of `readdir_image_tags`:
`if tag_prefix[-1] != '/': tag_prefix += '/'`. -/
def normPre (p : String) : String := if strEndsSlash p then p else p ++ "/"

/-- The loop of `readdir_image_tags` over the table's keys: for a matching tag
emit the remainder, or its first segment (de-duplicated) when the remainder
still contains a slash.  `sub_dir, _ = tag_remaining.split("/", maxsplit=2)`
raises `ValueError` when the remainder holds two or more slashes (three parts
cannot unpack into two names), which aborts the whole listing. -/
def tagNextLevel : List String → String → List String → Except FsError (List String)
  | [], _, _ => .ok []
  | tag :: ts, pre, sub_dirs =>
    if strStartsWith tag pre then
      let tag_remaining := strDrop tag (strLen pre)
      if strContains tag_remaining '/' then
        match strSplitMax tag_remaining '/' 2 with
        | [sub_dir, _] =>
          if sub_dir ∈ sub_dirs then tagNextLevel ts pre sub_dirs
          else (tagNextLevel ts pre (sub_dir :: sub_dirs)).map (fun ns => sub_dir :: ns)
        | _ => .error .valueError
      else (tagNextLevel ts pre sub_dirs).map (fun ns => tag_remaining :: ns)
    else tagNextLevel ts pre sub_dirs

/-- `readdir_image_tags` over a given symbolic-link table (its keys are
iterated in insertion order). -/
def readdir_image_tags (syms : List (String × String)) (tag_pre : String) :
    Except FsError (List String) :=
  tagNextLevel (syms.map Prod.fst) (normPre tag_pre) []

/-- `readdir_images` as a state-passing operation.  With no prefix it emits the
full listing and replaces the table; with a prefix it first rebuilds the table
when empty (the `sym_links_only` pass) and then filters it. -/
def readdir_images (eng : Engine) (tag_pre : Option String) (ctx : Ctx) :
    Except FsError (List String) × Ctx :=
  match tag_pre with
  | none =>
    (.ok (readdirImagesFull eng.imagesList),
     { ctx with image_symlinks := buildImageSyms eng.imagesList })
  | some p =>
    let ctx' :=
      if ctx.image_symlinks.isEmpty then
        { ctx with image_symlinks := buildImageSyms eng.imagesList }
      else ctx
    (readdir_image_tags ctx'.image_symlinks p, ctx')

/-- The names yielded by `readdir_containers` for one container. -/
def containerNames : List DModel → List String
  | [] => []
  | c :: rest => c.name :: ("." ++ c.id) :: containerNames rest

/-- The table `readdir_containers` leaves behind: `syms[name] = '.' + i.id`
(container ids carry no hash-algorithm marker, nothing is stripped). -/
def buildContainerSyms (cs : List DModel) : List (String × String) :=
  cs.foldl (fun syms c => setKey syms c.name ("." ++ c.id)) []

/-- `readdir_containers` as a state-passing operation.  The `tag_prefix`
argument of the Python function is ignored. -/
def readdir_containers (eng : Engine) (ctx : Ctx) : Except FsError (List String) × Ctx :=
  (.ok (containerNames eng.containersList),
   { ctx with container_symlinks := buildContainerSyms eng.containersList })

/-- File-mode bit constants (from `stat` / `file_attr.py`). -/
def S_IFDIR : Nat := 0o040000

/-- Regular-file type bits. -/
def S_IFREG : Nat := 0o100000

/-- Symbolic-link type bits. -/
def S_IFLNK : Nat := 0o120000

/-- File-type mask. -/
def S_IFMT : Nat := 0o170000

/-- Readable-by-all permission bits (`file_attr.S_IRALL`). -/
def S_IRALL : Nat := 0o444

/-- Executable-by-all permission bits (`file_attr.S_IXALL`). -/
def S_IXALL : Nat := 0o111

/-- The leading-dot strip applied before identifier lookups
(`if name[0] == '.': name = name[1:]`). -/
def stripDot (name : String) : String :=
  if strStartsWith name "." then strDrop name 1 else name

/-- `stat.S_IMODE`: the permission part of a mode. -/
def S_IMODE (m : Nat) : Nat := m &&& 0o7777

/-- The `_OLD` default timestamp. -/
def OLD : Nat := 0

/-- The `FileAttr` dictionary, restricted to the keys the source writes.
`st_birthtime` is `none` while the key is absent (the base attributes do not
set it). -/
structure FileAttr where
  st_atime : Nat
  st_ctime : Nat
  st_mtime : Nat
  st_birthtime : Option Nat := none
  st_uid : Nat
  st_gid : Nat
  st_mode : Nat
  st_nlink : Nat
  st_size : Nat
deriving DecidableEq, Repr

/-- `DockerContext.getattr_`: the base attributes.  Call sites only ever pass
`is_file` (the optional `mode`/time/`size` overrides keep their defaults, so
they are elided here): times default to `_OLD`, the mode to readable
regular-file or listable directory bits, and the size to the non-zero
placeholder `1000`. -/
def getattr_base (is_file : Bool) : FileAttr :=
  { st_atime := OLD
    st_ctime := OLD
    st_uid := 0
    st_gid := 0
    st_mode := S_IRALL ||| (if is_file then S_IFREG else S_IFDIR ||| S_IXALL)
    st_mtime := OLD
    st_nlink := if is_file then 1 else 2
    st_size := 1000 }

/-- `DockerContext._get_sizes`: walk the `("Containers",)` sections of the
`api.df()` payload (the `"Volumes"`/`"Images"` sections are not consulted) and
record `resource["Id"] -> resource.get("SizeRootFs")`.  The `ttl_cache`
time-window is transparent to the value computed and is not modelled. -/
def get_sizes (df : DfData) : List (String × Option Nat) :=
  match df.containers with
  | none => []
  | some resources =>
    if resources = [] then []
    else resources.foldl (fun result r => setKey result r.id r.sizeRootFs) []

/-- The timestamp of a model: `attrs.get("Created") or attrs.get("CreatedAt")`
(the source then feeds it to `datetime.fromisoformat`; a model lacking both
fields would crash there, so theorems quantify over models carrying one). -/
def ctimeOf (m : DModel) : Nat := (m.created.or m.createdAt).getD OLD

/-- The size a collection listing adds up per member:
`attrs.get("SizeRootFs", 0) or attrs.get("Size", 0)`. -/
def msize (m : DModel) : Nat := orDefault (pyOrN m.sizeRootFs m.size) 0

/-- `DockerContext._getattr_from_model`: file attributes for one resource.
Times come from the parsed creation timestamp; the size prefers
`SizeRootFs`, then `Size`, then the aggregate `_get_sizes()` lookup, then the
placeholder `1000`.  A non-empty, non-dot `name` found in any of the three
symbolic-link tables turns the entry into a symbolic link of size
`64 + 1 + 3 * name.count('/')`. -/
def getattr_from_model (ctx : Ctx) (df : DfData) (m : DModel) (name : String) : FileAttr :=
  let ctime := ctimeOf m
  let size :=
    orDefault (pyOrN (pyOrN m.sizeRootFs m.size) ((lookupKey (get_sizes df) m.id).join)) 1000
  let attr := getattr_base true
  let attr := { attr with
    st_ctime := ctime, st_mtime := ctime, st_atime := ctime,
    st_birthtime := some ctime, st_size := size }
  if name ≠ "" ∧ strStartsWith name "." = false then
    if hasKey ctx.volume_symlinks name ∨ hasKey ctx.image_symlinks name
        ∨ hasKey ctx.container_symlinks name then
      { attr with
        st_mode := S_IMODE attr.st_mode ||| S_IFLNK,
        st_size := 64 + 1 + 3 * strCount name '/' }
    else attr
  else attr

/-- The prefix normalisation of `_getattr_from_collection`:
`if tag_prefix and tag_prefix[-1] != '/': tag_prefix += '/'`. -/
def normCollPre : Option String → Option String
  | none => none
  | some p => if p ≠ "" ∧ strEndsSlash p = false then some (p ++ "/") else some p

/-- The member filter of `_getattr_from_collection`: with a truthy prefix,
keep only models having a tag that starts with it. -/
def keepModel : Option String → DModel → Bool
  | none, _ => true
  | some p, m => if p = "" then true else m.tags.any (fun t => strStartsWith t p)

/-- The accumulating loop of `_getattr_from_collection`: running maximum
timestamp (seeded with the base `_OLD`), summed member size, member count. -/
def collFold (models : List DModel) (pre : Option String) : Nat × Nat × Nat :=
  models.foldl
    (fun acc m =>
      if keepModel pre m then
        (if ctimeOf m > acc.1 then ctimeOf m else acc.1,
         acc.2.1 + msize m,
         acc.2.2 + 1)
      else acc)
    (OLD, 0, 0)

/-- `DockerContext._getattr_from_collection`: directory attributes synthesised
over the (optionally tag-filtered) members: latest timestamp, summed size
(`1000` when the sum is zero), and link count `2 +` member count. -/
def getattr_from_collection (models : List DModel) (tag_pre : Option String) : FileAttr :=
  let f := collFold models (normCollPre tag_pre)
  { getattr_base false with
    st_ctime := f.1, st_mtime := f.1, st_atime := f.1, st_birthtime := some f.1,
    st_size := if f.2.1 = 0 then 1000 else f.2.1,
    st_nlink := 2 + f.2.2 }

/-- `DockerContext._find_from_name`: strip a leading `.`, then
`collection.get`; `docker.errors.NotFound` becomes `FuseOSError(ENOENT)`.
(`name[0]` on an empty name would raise `IndexError`.) -/
def find_from_name (get : String → Option DModel) (name : String) : Except FsError DModel :=
  if name = "" then .error .indexError
  else
    match get (stripDot name) with
    | some m => .ok m
    | none => .error .ENOENT

/-- `DockerContext._find_from_path`: `path.split('/', maxsplit=3)` must give
exactly `['', category, rest]` (asserted), the category must be one of the
three fixed names (else `ENOENT`, before any engine call), then the rest is
resolved by `_find_from_name`. -/
def find_from_path (eng : Engine) (path : String) : Except FsError DModel :=
  match strSplitMax path '/' 3 with
  | [p0, p1, p2] =>
    if p0 ≠ "" then .error .assertionError
    else
      match p1 with
      | "volumes" => find_from_name eng.volumeGet p2
      | "images" => find_from_name eng.imageGet p2
      | "containers" => find_from_name eng.containerGet p2
      | _ => .error .ENOENT
  | _ => .error .assertionError

/-- `DockerContext._getattr_from_name` (note: the original, un-stripped name
is what reaches `_getattr_from_model`). -/
def getattr_from_name (get : String → Option DModel) (ctx : Ctx) (df : DfData)
    (name : String) : Except FsError FileAttr :=
  match find_from_name get name with
  | .ok m => .ok (getattr_from_model ctx df m name)
  | .error e => .error e

/-- `DockerContext.getattr_volumes` (via `_getattr`: a truthy name resolves a
single volume, otherwise the collection is summarised). -/
def getattr_volumes (eng : Engine) (ctx : Ctx) (name : Option String) :
    Except FsError FileAttr :=
  match name with
  | some n =>
    if n ≠ "" then getattr_from_name eng.volumeGet ctx eng.df n
    else .ok (getattr_from_collection eng.volumesList none)
  | none => .ok (getattr_from_collection eng.volumesList none)

/-- `DockerContext.getattr_containers` (as `getattr_volumes`, with
`all=True`). -/
def getattr_containers (eng : Engine) (ctx : Ctx) (name : Option String) :
    Except FsError FileAttr :=
  match name with
  | some n =>
    if n ≠ "" then getattr_from_name eng.containerGet ctx eng.df n
    else .ok (getattr_from_collection eng.containersList none)
  | none => .ok (getattr_from_collection eng.containersList none)

/-- `DockerContext.getattr_images`: strip a leading dot, try an exact
`collection.get`; on `NotFound` retry as a synthetic tag directory
(`name + '/'`), accepting the collection attributes only when their link count
exceeds the base `2`, and raising `ENOENT` otherwise.  Note that the stripped
name is what reaches `_getattr_from_model`. -/
def getattr_images (eng : Engine) (ctx : Ctx) (name : Option String) :
    Except FsError FileAttr :=
  match name with
  | some n =>
    if n = "" then .ok (getattr_from_collection eng.imagesList none)
    else
      match eng.imageGet (stripDot n) with
      | some model => .ok (getattr_from_model ctx eng.df model (stripDot n))
      | none =>
        let try_folder := stripDot n ++ "/"
        let result := getattr_from_collection eng.imagesList (some try_folder)
        if result.st_nlink > 2 then .ok result else .error .ENOENT
  | none => .ok (getattr_from_collection eng.imagesList none)

/-- `DockerContextWithRead.open`: resolve the path, then store the model in
the first free slot of the handle table at index 3 or above
(`self.file_desciptors.index(None, 3)`; `ValueError` when the table is
full). -/
def indexOfNone : List (Option DModel) → Nat → Option Nat
  | [], _ => none
  | x :: xs, 0 => if x.isNone then some 0 else (indexOfNone xs 0).map (fun i => i + 1)
  | _ :: xs, s + 1 => (indexOfNone xs s).map (fun i => i + 1)

/-- `DockerContextWithRead.open` as a state-passing operation over the handle
table. -/
def openOp (eng : Engine) (fds : List (Option DModel)) (path : String) :
    Except FsError (Nat × List (Option DModel)) :=
  match find_from_path eng path with
  | .error e => .error e
  | .ok model =>
    match indexOfNone fds 3 with
    | none => .error .valueError
    | some idx => .ok (idx, fds.set idx (some model))

/-- `DockerContextWithRead.release`: `assert self.file_desciptors[fh] is not
None` (an `AssertionError` on a double release, an `IndexError` past the
table), clear the slot, return 0. -/
def releaseOp (fds : List (Option DModel)) (fh : Nat) :
    Except FsError (Nat × List (Option DModel)) :=
  match fds.get? fh with
  | none => .error .indexError
  | some none => .error .assertionError
  | some (some _) => .ok (0, fds.set fh none)

/-- The category dispatch of `DockerOperations.getattr`
(`getattr(DockerContext, f"getattr_{parts[1]}")`, reached only after the
category was validated against the fixed tuple). -/
def dispatchGetattr (eng : Engine) (ctx : Ctx) (cat : String) (name : Option String) :
    Except FsError FileAttr :=
  if cat = "volumes" then getattr_volumes eng ctx name
  else if cat = "images" then getattr_images eng ctx name
  else getattr_containers eng ctx name

/-- `DockerOperations.getattr`: the root gets base directory attributes with
`st_nlink = len(ROOT_FOLDERS)`; any other path is split as
`path.split('/', maxsplit=2)`, must look like `['', category, rest?]` with a
valid category (else `FuseOSError(ENOENT)`), and is dispatched to the
category handler (a missing third part is Python `None`, here `none`). -/
def fuse_getattr (eng : Engine) (ctx : Ctx) (path : String) : Except FsError FileAttr :=
  if path = "/" then
    .ok { getattr_base false with st_nlink := ROOT_FOLDERS.length }
  else
    match strSplitMax path '/' 2 with
    | [p0, p1] =>
      if p0 = "" ∧ (p1 = "volumes" ∨ p1 = "images" ∨ p1 = "containers") then
        dispatchGetattr eng ctx p1 none
      else .error .ENOENT
    | [p0, p1, p2] =>
      if p0 = "" ∧ (p1 = "volumes" ∨ p1 = "images" ∨ p1 = "containers") then
        dispatchGetattr eng ctx p1 (some p2)
      else .error .ENOENT
    | _ => .error .ENOENT

/-- `DockerOperations.readdir`: assert the leading slash, split off the first
segment, then fetch the reader with `getattr(DockerContext,
f"readdir_{rel_path}")` — which raises an uncaught `AttributeError` for any
segment that is not `""`, `volumes`, `images` or `containers` (the
`if not reader` ENOENT guard is unreachable, since `getattr` without a default
never returns `None`).  A successful listing is prefixed with `.` and `..`. -/
def fuse_readdir (eng : Engine) (ctx : Ctx) (path : String) :
    Except FsError (List String) × Ctx :=
  if strStartsWith path "/" = false then (.error .assertionError, ctx)
  else
    let rel_path := strDrop path 1
    let pr : String × Option String :=
      if strContains rel_path '/' then
        match strSplitMax rel_path '/' 1 with
        | [a, b] => (a, some b)
        | _ => (rel_path, none)
      else (rel_path, none)
    let withDots : Except FsError (List String) × Ctx → Except FsError (List String) × Ctx :=
      fun r => (r.1.map (fun files => "." :: ".." :: files), r.2)
    match pr.1 with
    | "" => (.ok ("." :: ".." :: ROOT_FOLDERS), ctx)
    | "volumes" => withDots (readdir_volumes eng ctx)
    | "images" => withDots (readdir_images eng pr.2 ctx)
    | "containers" => withDots (readdir_containers eng ctx)
    | _ => (.error .attributeError, ctx)

/-- `DockerOperations.readlink`: forwards to `DockerContext.readlink`. -/
def fuse_readlink (ctx : Ctx) (path : String) : Except FsError String :=
  readlink ctx path

/-- Scenario A image: identifier `sha256:deadbeef`, tags `app:latest` and
`team/app:v2`. -/
def imgA : DModel := { id := "sha256:deadbeef", tags := ["app:latest", "team/app:v2"] }

/-- A symbolic-link table holding one tag whose remainder past `host/` still
holds two separators. -/
def deepSyms : List (String × String) := [("host/a/b/c:v", ".x")]

/-- Scenario B volume: name `myvol`, identifier `volid123` (8 characters,
no hash-algorithm marker). -/
def volB : DModel := { id := "volid123", name := "myvol", createdAt := some 5 }

/-- A container fixture. -/
def contA : DModel := { id := "c0ffee", name := "web", created := some 9 }

/-- A concrete engine with one resource per category. -/
def engA : Engine :=
  { volumesList := [volB]
    imagesList := [imgA]
    containersList := [contA]
    volumeGet := fun s => if s = "myvol" then some volB else none
    imageGet := fun _ => none
    containerGet := fun s => if s = "web" then some contA else none
    df := {} }

/-- The context after a full listing of each of `engA`'s categories. -/
def ctxA : Ctx :=
  { volume_symlinks := buildVolumeSyms [volB]
    image_symlinks := buildImageSyms [imgA]
    container_symlinks := buildContainerSyms [contA] }

/-- The context after a volume listing of `engA` only. -/
def ctxB : Ctx := { volume_symlinks := buildVolumeSyms [volB] }

/-- A handle table as allocated by `DockerContextWithRead.__init__`:
`[None] * 100`. -/
def fdsInit : List (Option DModel) := List.replicate 100 none

/-- A df payload whose `Containers` section names one container, together
with populated (and ignored) `Volumes`/`Images` sections. -/
def dfC10 : DfData :=
  { containers := some [{ id := "c0ffee", sizeRootFs := some 42 }]
    volumes := some [{ id := "volid123", sizeRootFs := some 7 }]
    images := some [{ id := "sha256:deadbeef", sizeRootFs := some 8 }] }

/-- An image model with both size fields absent, for the aggregate-lookup
fallthrough. -/
def imgC10 : DModel := { id := "sha256:deadbeef", created := some 3 }

/-- An image with a three-level tag: listing the synthetic directory `host`
must produce the next segment `a`. -/
def imgDeep : DModel := { id := "sha256:feed", tags := ["host/a/b/c:v"] }

/-- An engine holding only `imgDeep`. -/
def engDeep : Engine :=
  { volumesList := []
    imagesList := [imgDeep]
    containersList := []
    volumeGet := fun _ => none
    imageGet := fun _ => none
    containerGet := fun _ => none
    df := {} }

/-- The context after a full image listing of `engDeep`. -/
def ctxDeep : Ctx := { image_symlinks := buildImageSyms [imgDeep] }

/-! General lemmas about the association-list dictionary model. -/

theorem mem_setKey {α : Type} {m : List (String × α)} {k : String} {v : α} {p : String × α}
    (h : p ∈ setKey m k v) : p ∈ m ∨ p = (k, v) := by
  unfold setKey at h
  split at h
  · rcases List.mem_map.mp h with ⟨q, hq, hqe⟩
    by_cases hk : (q.1 == k) = true
    · rw [if_pos hk] at hqe
      exact Or.inr hqe.symm
    · rw [if_neg hk] at hqe
      exact Or.inl (hqe ▸ hq)
  · rcases List.mem_append.mp h with h' | h'
    · exact Or.inl h'
    · exact Or.inr (List.mem_singleton.mp h')

theorem lookupKey_mem {α : Type} :
    ∀ {m : List (String × α)} {k : String} {v : α}, lookupKey m k = some v → (k, v) ∈ m := by
  intro m
  induction m with
  | nil => intro k v h; simp [lookupKey] at h
  | cons p rest ih =>
    intro k v h
    unfold lookupKey at h
    split at h
    · next hk =>
      rw [show k = p.1 from (eq_of_beq hk).symm]
      cases h
      exact List.mem_cons_self _ _
    · exact List.mem_cons_of_mem _ (ih h)

theorem lookupKey_eq_none {α : Type} :
    ∀ {m : List (String × α)} {k : String}, (∀ p ∈ m, p.1 ≠ k) → lookupKey m k = none := by
  intro m
  induction m with
  | nil => intro k _; rfl
  | cons p rest ih =>
    intro k h
    unfold lookupKey
    rw [if_neg]
    · exact ih fun q hq => h q (List.mem_cons_of_mem _ hq)
    · intro hk
      exact h p (List.mem_cons_self _ _) (eq_of_beq hk)

/-! Provenance of the entries of each symbolic-link table. -/

theorem mem_tags_foldl {i : DModel} :
    ∀ {ts : List String} {m : List (String × String)} {p : String × String},
    p ∈ ts.foldl (fun syms t => setKey syms t (imageSha i)) m →
    p ∈ m ∨ (p.1 ∈ ts ∧ p.2 = imageSha i) := by
  intro ts
  induction ts with
  | nil => intro m p h; exact Or.inl h
  | cons t ts ih =>
    intro m p h
    rw [List.foldl_cons] at h
    rcases ih h with h' | h'
    · rcases mem_setKey h' with h'' | h''
      · exact Or.inl h''
      · right
        rw [h'']
        exact ⟨List.mem_cons_self _ _, rfl⟩
    · exact Or.inr ⟨List.mem_cons_of_mem _ h'.1, h'.2⟩

theorem mem_buildImageSyms_go :
    ∀ {imgs : List DModel} {m : List (String × String)} {p : String × String},
    p ∈ imgs.foldl (fun syms i => i.tags.foldl (fun syms t => setKey syms t (imageSha i)) syms) m →
    p ∈ m ∨ ∃ i ∈ imgs, p.1 ∈ i.tags ∧ p.2 = imageSha i := by
  intro imgs
  induction imgs with
  | nil => intro m p h; exact Or.inl h
  | cons i is ih =>
    intro m p h
    rw [List.foldl_cons] at h
    rcases ih h with h' | h'
    · rcases mem_tags_foldl h' with h'' | h''
      · exact Or.inl h''
      · exact Or.inr ⟨i, List.mem_cons_self _ _, h''⟩
    · rcases h' with ⟨j, hj, hjp⟩
      exact Or.inr ⟨j, List.mem_cons_of_mem _ hj, hjp⟩

theorem mem_buildImageSyms {imgs : List DModel} {p : String × String}
    (h : p ∈ buildImageSyms imgs) : ∃ i ∈ imgs, p.1 ∈ i.tags ∧ p.2 = imageSha i := by
  rcases mem_buildImageSyms_go h with h' | h'
  · simp at h'
  · exact h'

theorem mem_buildVolumeSyms_go :
    ∀ {vols : List DModel} {m : List (String × String)} {p : String × String},
    p ∈ vols.foldl
        (fun syms v =>
          let sha256 := strip256 v.id
          if sha256 ≠ v.name then setKey syms v.name ("." ++ sha256) else syms) m →
    p ∈ m ∨ ∃ v ∈ vols, strip256 v.id ≠ v.name ∧ p = (v.name, "." ++ strip256 v.id) := by
  intro vols
  induction vols with
  | nil => intro m p h; exact Or.inl h
  | cons v vs ih =>
    intro m p h
    rw [List.foldl_cons] at h
    rcases ih h with h' | h'
    · by_cases hne : strip256 v.id ≠ v.name
      · rw [if_pos hne] at h'
        rcases mem_setKey h' with h'' | h''
        · exact Or.inl h''
        · exact Or.inr ⟨v, List.mem_cons_self _ _, hne, h''⟩
      · rw [if_neg hne] at h'
        exact Or.inl h'
    · rcases h' with ⟨w, hw, hwp⟩
      exact Or.inr ⟨w, List.mem_cons_of_mem _ hw, hwp⟩

theorem mem_buildVolumeSyms {vols : List DModel} {p : String × String}
    (h : p ∈ buildVolumeSyms vols) :
    ∃ v ∈ vols, strip256 v.id ≠ v.name ∧ p = (v.name, "." ++ strip256 v.id) := by
  rcases mem_buildVolumeSyms_go h with h' | h'
  · simp at h'
  · exact h'

theorem mem_buildContainerSyms_go :
    ∀ {cs : List DModel} {m : List (String × String)} {p : String × String},
    p ∈ cs.foldl (fun syms c => setKey syms c.name ("." ++ c.id)) m →
    p ∈ m ∨ ∃ c ∈ cs, p = (c.name, "." ++ c.id) := by
  intro cs
  induction cs with
  | nil => intro m p h; exact Or.inl h
  | cons c cs ih =>
    intro m p h
    rw [List.foldl_cons] at h
    rcases ih h with h' | h'
    · rcases mem_setKey h' with h'' | h''
      · exact Or.inl h''
      · exact Or.inr ⟨c, List.mem_cons_self _ _, h''⟩
    · rcases h' with ⟨d, hd, hdp⟩
      exact Or.inr ⟨d, List.mem_cons_of_mem _ hd, hdp⟩

theorem mem_buildContainerSyms {cs : List DModel} {p : String × String}
    (h : p ∈ buildContainerSyms cs) : ∃ c ∈ cs, p = (c.name, "." ++ c.id) := by
  rcases mem_buildContainerSyms_go h with h' | h'
  · simp at h'
  · exact h'

theorem mem_get_sizes_go :
    ∀ {rs : List DfResource} {m : List (String × Option Nat)} {p : String × Option Nat},
    p ∈ rs.foldl (fun result r => setKey result r.id r.sizeRootFs) m →
    p ∈ m ∨ ∃ r ∈ rs, p = (r.id, r.sizeRootFs) := by
  intro rs
  induction rs with
  | nil => intro m p h; exact Or.inl h
  | cons r rs ih =>
    intro m p h
    rw [List.foldl_cons] at h
    rcases ih h with h' | h'
    · rcases mem_setKey h' with h'' | h''
      · exact Or.inl h''
      · exact Or.inr ⟨r, List.mem_cons_self _ _, h''⟩
    · rcases h' with ⟨q, hq, hqp⟩
      exact Or.inr ⟨q, List.mem_cons_of_mem _ hq, hqp⟩

theorem mem_get_sizes {df : DfData} {p : String × Option Nat} (h : p ∈ get_sizes df) :
    ∃ r ∈ df.containers.getD [], p = (r.id, r.sizeRootFs) := by
  unfold get_sizes at h
  cases hdf : df.containers with
  | none => rw [hdf] at h; simp at h
  | some rs =>
    rw [hdf] at h
    simp only [] at h
    simp only [Option.getD_some]
    by_cases hrs : rs = []
    · rw [if_pos hrs] at h
      simp at h
    · rw [if_neg hrs] at h
      rcases mem_get_sizes_go h with h' | h'
      · simp at h'
      · exact h'

/-! Path parsing facts for `readlink`. -/

theorem parse_volumes (t : String) : strSplitMax ("/volumes/" ++ t) '/' 2 = ["", "volumes", t] := by
  cases t
  rfl

theorem parse_images (t : String) : strSplitMax ("/images/" ++ t) '/' 2 = ["", "images", t] := by
  cases t
  rfl

theorem parse_containers (t : String) :
    strSplitMax ("/containers/" ++ t) '/' 2 = ["", "containers", t] := by
  cases t
  rfl

theorem empty_append_str (s : String) : "" ++ s = s := by
  cases s
  rfl

theorem ascend_append (n : Nat) (s : String) :
    (if n > 0 then ascend n ++ s else s) = ascend n ++ s := by
  cases n with
  | zero => rw [if_neg (by omega), ascend, empty_append_str]
  | succ k => rw [if_pos (by omega)]

theorem readlink_volumes {ctx : Ctx} {tag dest : String}
    (h : lookupKey ctx.volume_symlinks tag = some dest) :
    readlink ctx ("/volumes/" ++ tag) = .ok (ascend (strCount tag '/') ++ dest) := by
  unfold readlink
  rw [parse_volumes]
  simp only [if_pos rfl, ite_true, h, ascend_append]

theorem readlink_images {ctx : Ctx} {tag dest : String}
    (h : lookupKey ctx.image_symlinks tag = some dest) :
    readlink ctx ("/images/" ++ tag) = .ok (ascend (strCount tag '/') ++ dest) := by
  unfold readlink
  rw [parse_images]
  simp only [if_pos rfl, ite_true, if_neg (by decide : ¬("images" : String) = "volumes"), h,
    ascend_append]

theorem readlink_containers {ctx : Ctx} {tag dest : String}
    (h : lookupKey ctx.container_symlinks tag = some dest) :
    readlink ctx ("/containers/" ++ tag) = .ok (ascend (strCount tag '/') ++ dest) := by
  unfold readlink
  rw [parse_containers]
  simp only [if_pos rfl, ite_true, if_neg (by decide : ¬("containers" : String) = "volumes"),
    if_neg (by decide : ¬("containers" : String) = "images"), h, ascend_append]

/-- C2: for every tag entry recorded in a category's Symbolic-Link Table by
the most recent full listing of that category, `readlink` on
`/<category>/<tag>` returns the tag's target identifier entry prefixed by
exactly as many `../` segments as the tag contains `/` separators, and that
target is the identifier entry of the resource the tag belongs to. -/
theorem spec_c2 (eng : Engine) (ctx : Ctx)
    (hv : ctx.volume_symlinks = buildVolumeSyms eng.volumesList)
    (hi : ctx.image_symlinks = buildImageSyms eng.imagesList)
    (hc : ctx.container_symlinks = buildContainerSyms eng.containersList)
    (hids : ∀ i ∈ eng.imagesList, strStartsWith i.id "sha256:" = true) :
    (∀ tag dest, lookupKey ctx.image_symlinks tag = some dest →
      readlink ctx ("/images/" ++ tag) = .ok (ascend (strCount tag '/') ++ dest) ∧
      ∃ i ∈ eng.imagesList, tag ∈ i.tags ∧ dest = "." ++ strip256 i.id) ∧
    (∀ tag dest, lookupKey ctx.volume_symlinks tag = some dest →
      readlink ctx ("/volumes/" ++ tag) = .ok (ascend (strCount tag '/') ++ dest) ∧
      ∃ v ∈ eng.volumesList, tag = v.name ∧ dest = "." ++ strip256 v.id) ∧
    (∀ tag dest, lookupKey ctx.container_symlinks tag = some dest →
      readlink ctx ("/containers/" ++ tag) = .ok (ascend (strCount tag '/') ++ dest) ∧
      ∃ c ∈ eng.containersList, tag = c.name ∧ dest = "." ++ c.id) := by
  refine ⟨?_, ?_, ?_⟩
  · intro tag dest hlk
    refine ⟨readlink_images hlk, ?_⟩
    rw [hi] at hlk
    rcases mem_buildImageSyms (lookupKey_mem hlk) with ⟨i, hiMem, htag, hdest⟩
    refine ⟨i, hiMem, htag, ?_⟩
    rw [show dest = imageSha i from hdest]
    unfold imageSha strip256
    rw [if_pos (hids i hiMem)]
  · intro tag dest hlk
    refine ⟨readlink_volumes hlk, ?_⟩
    rw [hv] at hlk
    rcases mem_buildVolumeSyms (lookupKey_mem hlk) with ⟨v, hvMem, _, hp⟩
    exact ⟨v, hvMem, congrArg Prod.fst hp, congrArg Prod.snd hp⟩
  · intro tag dest hlk
    refine ⟨readlink_containers hlk, ?_⟩
    rw [hc] at hlk
    rcases mem_buildContainerSyms (lookupKey_mem hlk) with ⟨c, hcMem, hp⟩
    exact ⟨c, hcMem, congrArg Prod.fst hp, congrArg Prod.snd hp⟩

/-- C2 witness: the Scenario A image tag `team/app:v2` in a concretely listed
context. -/
theorem spec_c2_witness :
    lookupKey ctxA.image_symlinks "team/app:v2" = some ".deadbeef" ∧
    (readlink ctxA ("/images/" ++ "team/app:v2") =
        .ok (ascend (strCount "team/app:v2" '/') ++ ".deadbeef") ∧
      ∃ i ∈ engA.imagesList, "team/app:v2" ∈ i.tags ∧ ".deadbeef" = "." ++ strip256 i.id) :=
  ⟨rfl, (spec_c2 engA ctxA rfl rfl rfl (by decide)).1 "team/app:v2" ".deadbeef" rfl⟩

/-- C1: the Scenario A behaviour holds concretely — the full `/images` listing
yields the identifier entry `.deadbeef`, the flat tag `app:latest` and the
synthetic directory `team` (once), and listing `/images/team` yields
`app:v2` — but the tag-prefix listing is broken for deeper tags: with a tag
`host/a/b/c:v` recorded, listing `/images/host` raises an uncaught
`ValueError` (`sub_dir, _ = tag_remaining.split("/", maxsplit=2)` produces
three values) instead of emitting the next segment `a`. -/
theorem spec_c1 :
    fuse_readdir engA {} "/images" =
      (.ok [".", "..", ".deadbeef", "app:latest", "team"],
       { image_symlinks := [("app:latest", ".deadbeef"), ("team/app:v2", ".deadbeef")] }) ∧
    fuse_readdir engA ctxA "/images/team" = (.ok [".", "..", "app:v2"], ctxA) ∧
    buildImageSyms [imgDeep] = [("host/a/b/c:v", ".feed")] ∧
    readdir_image_tags (buildImageSyms [imgDeep]) "host" = .error .valueError ∧
    fuse_readdir engDeep ctxDeep "/images/host" = (.error .valueError, ctxDeep) :=
  ⟨rfl, rfl, rfl, rfl, rfl⟩

/-- C3 counterexample: `getattr("/volumes/myvol")` for the volume `myvol`
whose identifier `volid123` has 8 characters returns symbolic-link type bits
but size `65 = 64 + 1`, not `len(identifier) + 1 = 9` as the claim states. -/
theorem spec_c3_cex :
    (fuse_getattr engA ctxB "/volumes/myvol").map (fun a => (a.st_mode &&& S_IFMT, a.st_size)) =
      .ok (S_IFLNK, 65) ∧
    strLen volB.id + 1 = 9 ∧ (65 : Nat) ≠ 9 :=
  ⟨rfl, rfl, by decide⟩

/-- C3 (amended): a resource attribute lookup whose non-dot name is present in
the current Symbolic-Link Table of any category reports symbolic-link type
bits instead of regular-file bits, and a size of `64 + 1 + 3 * slashes` —
the fixed sha-256 digest length plus the dot marker plus three characters per
`/` in the name — independent of the target identifier's actual length. -/
theorem spec_c3 (ctx : Ctx) (df : DfData) (m : DModel) (name : String)
    (hne : name ≠ "") (hdot : strStartsWith name "." = false)
    (htab : hasKey ctx.volume_symlinks name = true ∨ hasKey ctx.image_symlinks name = true
      ∨ hasKey ctx.container_symlinks name = true) :
    (getattr_from_model ctx df m name).st_mode &&& S_IFMT = S_IFLNK ∧
    (getattr_from_model ctx df m name).st_mode = S_IMODE (getattr_base true).st_mode ||| S_IFLNK ∧
    (getattr_from_model ctx df m name).st_size = 64 + 1 + 3 * strCount name '/' := by
  unfold getattr_from_model
  rw [if_pos ⟨hne, hdot⟩, if_pos htab]
  refine ⟨?_, rfl, rfl⟩
  show (S_IMODE (getattr_base true).st_mode ||| S_IFLNK) &&& S_IFMT = S_IFLNK
  decide

/-- C3 witness: the `myvol` link entry of the listed volume table. -/
theorem spec_c3_witness :
    ("myvol" ≠ "" ∧ strStartsWith "myvol" "." = false ∧
      hasKey ctxB.volume_symlinks "myvol" = true) ∧
    ((getattr_from_model ctxB {} volB "myvol").st_mode &&& S_IFMT = S_IFLNK ∧
      (getattr_from_model ctxB {} volB "myvol").st_mode =
        S_IMODE (getattr_base true).st_mode ||| S_IFLNK ∧
      (getattr_from_model ctxB {} volB "myvol").st_size = 64 + 1 + 3 * strCount "myvol" '/') :=
  ⟨⟨by decide, rfl, rfl⟩, spec_c3 ctxB {} volB "myvol" (by decide) rfl (Or.inl rfl)⟩

/-! The accumulating loop of `_getattr_from_collection`, reduced to
filter/map/fold form. -/

theorem if_gt_eq_max (a c : Nat) : (if c > a then c else a) = max a c := by
  rw [Nat.max_def]
  split <;> split <;> omega

theorem collFold_go (pre : Option String) :
    ∀ (models : List DModel) (a s n : Nat),
    models.foldl
      (fun acc m =>
        if keepModel pre m then
          (if ctimeOf m > acc.1 then ctimeOf m else acc.1,
           acc.2.1 + msize m,
           acc.2.2 + 1)
        else acc) (a, s, n) =
    (((models.filter (keepModel pre)).map ctimeOf).foldl max a,
     s + ((models.filter (keepModel pre)).map msize).sum,
     n + (models.filter (keepModel pre)).length) := by
  intro models
  induction models with
  | nil => intro a s n; simp
  | cons m ms ih =>
    intro a s n
    rw [List.foldl_cons, List.filter_cons]
    by_cases h : keepModel pre m = true
    · rw [if_pos h, if_pos h, ih]
      simp only [List.map_cons, List.foldl_cons, List.sum_cons, List.length_cons, if_gt_eq_max,
        Prod.mk.injEq]
      refine ⟨by simp, by omega, by omega⟩
    · rw [if_neg h, if_neg h]
      exact ih a s n

theorem collFold_eq (models : List DModel) (pre : Option String) :
    collFold models pre =
      (((models.filter (keepModel pre)).map ctimeOf).foldl max OLD,
       ((models.filter (keepModel pre)).map msize).sum,
       (models.filter (keepModel pre)).length) := by
  unfold collFold
  rw [collFold_go]
  simp

theorem foldl_max_go : ∀ (xs : List Nat) (a : Nat), xs.foldl max a = max a (xs.foldl max 0) := by
  intro xs
  induction xs with
  | nil => intro a; simp
  | cons x xs ih =>
    intro a
    rw [List.foldl_cons, List.foldl_cons, ih (max a x), ih (max 0 x)]
    simp [Nat.max_assoc]

theorem foldl_max_eq_getD_max? (l : List Nat) : l.foldl max OLD = l.max?.getD OLD := by
  cases l with
  | nil => rfl
  | cons x xs =>
    show (x :: xs).foldl max 0 = ((x :: xs).max?).getD 0
    rw [List.foldl_cons, show (x :: xs).max? = some (xs.foldl max x) from rfl,
      Option.getD_some, foldl_max_go xs (max 0 x), foldl_max_go xs x]
    simp

/-- C4: category-directory attributes over a member set report a size equal to
the sum of the members' sizes when that sum is non-zero and the fixed
placeholder `1000` otherwise (in particular for an empty member set), and all
four timestamp fields equal the maximum member creation timestamp, or the base
default `_OLD` when there are no members; the link count is `2` plus the
member count. -/
theorem spec_c4 (models : List DModel) (tp : Option String) :
    (getattr_from_collection models tp).st_size =
      (if ((models.filter (keepModel (normCollPre tp))).map msize).sum = 0 then 1000
       else ((models.filter (keepModel (normCollPre tp))).map msize).sum) ∧
    (getattr_from_collection models tp).st_ctime =
      ((models.filter (keepModel (normCollPre tp))).map ctimeOf).max?.getD OLD ∧
    (getattr_from_collection models tp).st_mtime =
      ((models.filter (keepModel (normCollPre tp))).map ctimeOf).max?.getD OLD ∧
    (getattr_from_collection models tp).st_atime =
      ((models.filter (keepModel (normCollPre tp))).map ctimeOf).max?.getD OLD ∧
    (getattr_from_collection models tp).st_birthtime =
      some (((models.filter (keepModel (normCollPre tp))).map ctimeOf).max?.getD OLD) ∧
    (getattr_from_collection models tp).st_nlink =
      2 + (models.filter (keepModel (normCollPre tp))).length := by
  unfold getattr_from_collection
  rw [collFold_eq]
  refine ⟨rfl, ?_, ?_, ?_, ?_, rfl⟩ <;> simp only [foldl_max_eq_getD_max?]

/-! Facts about slash-terminated tag prefixes. -/

theorem strEndsSlash_append (s : String) : strEndsSlash (s ++ "/") = true := by
  unfold strEndsSlash
  have h : (s ++ "/").toList = s.toList ++ ['/'] := by
    show (s ++ "/").data = s.data ++ ['/']
    rw [String.data_append]
  rw [h, List.getLast?_concat]
  rfl

theorem append_slash_ne_empty (s : String) : s ++ "/" ≠ "" := by
  intro h
  have h2 : s.data ++ ['/'] = [] := by
    have h3 := congrArg String.data h
    rw [String.data_append] at h3
    exact h3
  simp at h2

theorem normCollPre_slash (s : String) : normCollPre (some (s ++ "/")) = some (s ++ "/") := by
  have hno : ¬((s ++ "/") ≠ "" ∧ strEndsSlash (s ++ "/") = false) := by
    rintro ⟨-, h2⟩
    rw [strEndsSlash_append] at h2
    cases h2
  show (if (s ++ "/") ≠ "" ∧ strEndsSlash (s ++ "/") = false then some ((s ++ "/") ++ "/")
    else some (s ++ "/")) = some (s ++ "/")
  rw [if_neg hno]

theorem keepModel_slash (s : String) (m : DModel) :
    keepModel (some (s ++ "/")) m = m.tags.any (fun t => strStartsWith t (s ++ "/")) := by
  show (if (s ++ "/") = "" then true else m.tags.any (fun t => strStartsWith t (s ++ "/"))) = _
  rw [if_neg (append_slash_ne_empty s)]

/-- C5: `getattr_images` on a name that (after the optional leading-dot strip)
matches no resource exactly returns the synthetic tag-directory attributes —
directory type bits and link count above the base `2` — precisely when some
image has a tag starting with the name plus a `/` separator, and fails with
`FuseOSError(ENOENT)` otherwise: the zero-match filtered listing is reported
as NotFound via the link-count test. -/
theorem spec_c5 (eng : Engine) (ctx : Ctx) (n : String) (hne : n ≠ "")
    (hget : eng.imageGet (stripDot n) = none) :
    ((∃ m ∈ eng.imagesList, ∃ t ∈ m.tags, strStartsWith t (stripDot n ++ "/") = true) →
      getattr_images eng ctx (some n) =
        .ok (getattr_from_collection eng.imagesList (some (stripDot n ++ "/"))) ∧
      (getattr_from_collection eng.imagesList (some (stripDot n ++ "/"))).st_nlink > 2 ∧
      (getattr_from_collection eng.imagesList (some (stripDot n ++ "/"))).st_mode &&& S_IFMT
        = S_IFDIR) ∧
    ((¬∃ m ∈ eng.imagesList, ∃ t ∈ m.tags, strStartsWith t (stripDot n ++ "/") = true) →
      getattr_images eng ctx (some n) = .error .ENOENT) := by
  have hnl : (getattr_from_collection eng.imagesList (some (stripDot n ++ "/"))).st_nlink =
      2 + (eng.imagesList.filter
        (fun m => m.tags.any (fun t => strStartsWith t (stripDot n ++ "/")))).length := by
    unfold getattr_from_collection
    rw [collFold_eq, normCollPre_slash]
    show 2 + (eng.imagesList.filter (keepModel (some (stripDot n ++ "/")))).length = _
    rw [List.filter_congr (fun m _ => keepModel_slash (stripDot n) m)]
  have hiff : (getattr_from_collection eng.imagesList (some (stripDot n ++ "/"))).st_nlink > 2 ↔
      (∃ m ∈ eng.imagesList, ∃ t ∈ m.tags, strStartsWith t (stripDot n ++ "/") = true) := by
    rw [hnl]
    constructor
    · intro h
      have hlen : 0 < (eng.imagesList.filter
          (fun m => m.tags.any (fun t => strStartsWith t (stripDot n ++ "/")))).length := by
        omega
      rcases List.exists_mem_of_length_pos hlen with ⟨m, hm⟩
      rcases List.mem_filter.mp hm with ⟨hmem, hpred⟩
      rcases List.any_eq_true.mp hpred with ⟨t, ht, hts⟩
      exact ⟨m, hmem, t, ht, hts⟩
    · rintro ⟨m, hm, t, ht, hts⟩
      have hmf : m ∈ eng.imagesList.filter
          (fun m => m.tags.any (fun t => strStartsWith t (stripDot n ++ "/"))) :=
        List.mem_filter.mpr ⟨hm, List.any_eq_true.mpr ⟨t, ht, hts⟩⟩
      have := List.length_pos_of_mem hmf
      omega
  have hred : getattr_images eng ctx (some n) =
      (if (getattr_from_collection eng.imagesList (some (stripDot n ++ "/"))).st_nlink > 2 then
        .ok (getattr_from_collection eng.imagesList (some (stripDot n ++ "/")))
      else .error .ENOENT) := by
    show (if n = "" then Except.ok (getattr_from_collection eng.imagesList none)
      else
        match eng.imageGet (stripDot n) with
        | some model => Except.ok (getattr_from_model ctx eng.df model (stripDot n))
        | none =>
          let try_folder := stripDot n ++ "/"
          let result := getattr_from_collection eng.imagesList (some try_folder)
          if result.st_nlink > 2 then Except.ok result else Except.error FsError.ENOENT) = _
    rw [if_neg hne, hget]
  constructor
  · intro hex
    refine ⟨?_, hiff.mpr hex, ?_⟩
    · rw [hred, if_pos (hiff.mpr hex)]
    · show (getattr_base false).st_mode &&& S_IFMT = S_IFDIR
      decide
  · intro hnot
    rw [hred, if_neg (fun h => hnot (hiff.mp h))]

/-- C5 witness: `getattr_images` on the synthetic directory name `team` of
Scenario A, matching no image exactly. -/
theorem spec_c5_witness :
    ("team" ≠ "" ∧ engA.imageGet (stripDot "team") = none ∧
      (∃ m ∈ engA.imagesList, ∃ t ∈ m.tags, strStartsWith t (stripDot "team" ++ "/") = true)) ∧
    (getattr_images engA {} (some "team") =
        .ok (getattr_from_collection engA.imagesList (some (stripDot "team" ++ "/"))) ∧
      (getattr_from_collection engA.imagesList (some (stripDot "team" ++ "/"))).st_nlink > 2 ∧
      (getattr_from_collection engA.imagesList (some (stripDot "team" ++ "/"))).st_mode &&& S_IFMT
        = S_IFDIR) :=
  ⟨⟨by decide, rfl, by decide⟩, (spec_c5 engA {} "team" (by decide) rfl).1 (by decide)⟩

/-- C6: each full-category listing replaces exactly its own category's
Symbolic-Link Table with the mappings computed from the engine listing of that
pass (whatever the table held before is discarded: the new table depends only
on the engine data), and leaves the two other categories' tables unchanged. -/
theorem spec_c6 (eng : Engine) (ctx : Ctx)
    (_hids : ∀ i ∈ eng.imagesList, strStartsWith i.id "sha256:" = true) :
    ((readdir_volumes eng ctx).2.volume_symlinks = buildVolumeSyms eng.volumesList ∧
      (readdir_volumes eng ctx).2.image_symlinks = ctx.image_symlinks ∧
      (readdir_volumes eng ctx).2.container_symlinks = ctx.container_symlinks) ∧
    ((readdir_images eng none ctx).2.image_symlinks = buildImageSyms eng.imagesList ∧
      (readdir_images eng none ctx).2.volume_symlinks = ctx.volume_symlinks ∧
      (readdir_images eng none ctx).2.container_symlinks = ctx.container_symlinks) ∧
    ((readdir_containers eng ctx).2.container_symlinks = buildContainerSyms eng.containersList ∧
      (readdir_containers eng ctx).2.volume_symlinks = ctx.volume_symlinks ∧
      (readdir_containers eng ctx).2.image_symlinks = ctx.image_symlinks) :=
  ⟨⟨rfl, rfl, rfl⟩, ⟨rfl, rfl, rfl⟩, ⟨rfl, rfl, rfl⟩⟩

/-- C6 witness: the concrete engine `engA` from an arbitrary starting
context. -/
theorem spec_c6_witness :
    (readdir_volumes engA ctxA).2.volume_symlinks = buildVolumeSyms engA.volumesList ∧
    (readdir_volumes engA ctxA).2.image_symlinks = ctxA.image_symlinks ∧
    (readdir_volumes engA ctxA).2.container_symlinks = ctxA.container_symlinks :=
  (spec_c6 engA ctxA (by decide)).1

/-- C7: listing the same category twice in a row against an unchanged engine
yields the same names both times and leaves the category's Symbolic-Link
Table (indeed the whole context) after the second listing equal to its value
after the first; for images this covers both the full listing and any
tag-prefix listing. -/
theorem spec_c7 (eng : Engine) (ctx : Ctx) (p : Option String)
    (_hids : ∀ i ∈ eng.imagesList, strStartsWith i.id "sha256:" = true) :
    ((readdir_volumes eng ((readdir_volumes eng ctx).2)).1 = (readdir_volumes eng ctx).1 ∧
      (readdir_volumes eng ((readdir_volumes eng ctx).2)).2 = (readdir_volumes eng ctx).2) ∧
    ((readdir_images eng p ((readdir_images eng p ctx).2)).1 = (readdir_images eng p ctx).1 ∧
      (readdir_images eng p ((readdir_images eng p ctx).2)).2 = (readdir_images eng p ctx).2) ∧
    ((readdir_containers eng ((readdir_containers eng ctx).2)).1
        = (readdir_containers eng ctx).1 ∧
      (readdir_containers eng ((readdir_containers eng ctx).2)).2
        = (readdir_containers eng ctx).2) := by
  refine ⟨⟨rfl, rfl⟩, ?_, ⟨rfl, rfl⟩⟩
  cases p with
  | none => exact ⟨rfl, rfl⟩
  | some q =>
    by_cases h : ctx.image_symlinks.isEmpty = true
    · have e1 : readdir_images eng (some q) ctx =
          (readdir_image_tags (buildImageSyms eng.imagesList) q,
           { ctx with image_symlinks := buildImageSyms eng.imagesList }) := by
        show (readdir_image_tags
            (if ctx.image_symlinks.isEmpty then
              { ctx with image_symlinks := buildImageSyms eng.imagesList }
             else ctx).image_symlinks q,
          if ctx.image_symlinks.isEmpty then
            { ctx with image_symlinks := buildImageSyms eng.imagesList }
          else ctx) = _
        rw [if_pos h]
      have e2 : readdir_images eng (some q)
            { ctx with image_symlinks := buildImageSyms eng.imagesList } =
          (readdir_image_tags (buildImageSyms eng.imagesList) q,
           { ctx with image_symlinks := buildImageSyms eng.imagesList }) := by
        show (readdir_image_tags
            (if (buildImageSyms eng.imagesList).isEmpty then
              { ctx with image_symlinks := buildImageSyms eng.imagesList }
             else { ctx with image_symlinks := buildImageSyms eng.imagesList }).image_symlinks q,
          if (buildImageSyms eng.imagesList).isEmpty then
            { ctx with image_symlinks := buildImageSyms eng.imagesList }
          else { ctx with image_symlinks := buildImageSyms eng.imagesList }) = _
        rw [ite_self]
      simp only [e1, e2]
      exact ⟨trivial, trivial⟩
    · have e1 : readdir_images eng (some q) ctx =
          (readdir_image_tags ctx.image_symlinks q, ctx) := by
        show (readdir_image_tags
            (if ctx.image_symlinks.isEmpty then
              { ctx with image_symlinks := buildImageSyms eng.imagesList }
             else ctx).image_symlinks q,
          if ctx.image_symlinks.isEmpty then
            { ctx with image_symlinks := buildImageSyms eng.imagesList }
          else ctx) = _
        rw [if_neg h]
      simp only [e1]
      exact ⟨trivial, trivial⟩

/-- C7 witness: a repeated tag-prefix listing of `/images/team` against
`engA`. -/
theorem spec_c7_witness :
    (readdir_images engA (some "team") ((readdir_images engA (some "team") ctxA).2)).1
        = (readdir_images engA (some "team") ctxA).1 ∧
    (readdir_images engA (some "team") ((readdir_images engA (some "team") ctxA).2)).2
        = (readdir_images engA (some "team") ctxA).2 :=
  (spec_c7 engA ctxA (some "team") (by decide)).2.1

/-- C8: a path whose first segment is not one of the three category names.
`getattr` and `open`'s path lookup (`_find_from_path`) fail with
`FuseOSError(ENOENT)` for every engine — so before any engine call — but
`readdir` instead raises an uncaught `AttributeError`
(`getattr(DockerContext, "readdir_bogus")` has no default), not the NotFound
error the claim requires. -/
theorem spec_c8 (eng : Engine) (ctx : Ctx) :
    fuse_getattr eng ctx "/bogus/x" = .error .ENOENT ∧
    fuse_getattr eng ctx "/bogus" = .error .ENOENT ∧
    find_from_path eng "/bogus/x" = .error .ENOENT ∧
    fuse_readdir eng ctx "/bogus" = (.error .attributeError, ctx) :=
  ⟨rfl, rfl, rfl, rfl⟩

/-! The free-slot search of the handle table. -/

theorem indexOfNone_spec :
    ∀ (fds : List (Option DModel)) (s idx : Nat), indexOfNone fds s = some idx →
      s ≤ idx ∧ fds.get? idx = some none ∧
      ∀ j, s ≤ j → j < idx → ∃ y, fds.get? j = some (some y) := by
  intro fds
  induction fds with
  | nil => intro s idx h; simp [indexOfNone] at h
  | cons x xs ih =>
    intro s idx h
    match s with
    | 0 =>
      unfold indexOfNone at h
      by_cases hx : x.isNone = true
      · rw [if_pos hx] at h
        cases h
        refine ⟨Nat.le_refl 0, ?_, ?_⟩
        · rw [Option.isNone_iff_eq_none.mp hx]
          rfl
        · intro j _ hj0
          omega
      · rw [if_neg hx] at h
        rcases Option.map_eq_some'.mp h with ⟨i, hi, hidx⟩
        obtain ⟨-, hget, hall⟩ := ih 0 i hi
        subst hidx
        refine ⟨Nat.zero_le _, hget, ?_⟩
        intro j _ hjlt
        match j with
        | 0 =>
          rcases Option.ne_none_iff_exists'.mp
            (show x ≠ none from fun hn => hx (by rw [hn]; rfl)) with ⟨y, hy⟩
          exact ⟨y, by simp [hy]⟩
        | j + 1 => exact hall j (Nat.zero_le _) (by omega)
    | s + 1 =>
      unfold indexOfNone at h
      rcases Option.map_eq_some'.mp h with ⟨i, hi, hidx⟩
      obtain ⟨hle, hget, hall⟩ := ih s i hi
      subst hidx
      refine ⟨Nat.succ_le_succ hle, hget, ?_⟩
      intro j hj hjlt
      match j with
      | 0 => omega
      | j + 1 => exact hall j (by omega) (by omega)

/-- C9: a successful `open` stores the resolved resource in the first free
handle-table slot at index 3 or above and returns that index; `release` on
that handle clears the slot and returns 0; a second `release` of the same
handle hits the `assert` and raises an `AssertionError` (the
InternalInvariantViolation) instead of returning a recoverable error. -/
theorem spec_c9 (eng : Engine) (fds : List (Option DModel)) (path : String) (m : DModel)
    (idx : Nat) (hfind : find_from_path eng path = .ok m)
    (hidx : indexOfNone fds 3 = some idx) :
    openOp eng fds path = .ok (idx, fds.set idx (some m)) ∧
    3 ≤ idx ∧
    fds.get? idx = some none ∧
    (∀ j, 3 ≤ j → j < idx → ∃ y, fds.get? j = some (some y)) ∧
    releaseOp (fds.set idx (some m)) idx = .ok (0, (fds.set idx (some m)).set idx none) ∧
    releaseOp ((fds.set idx (some m)).set idx none) idx = .error .assertionError := by
  obtain ⟨h3, hget, hall⟩ := indexOfNone_spec fds 3 idx hidx
  have hlen : idx < fds.length := by
    rcases List.get?_eq_some.mp hget with ⟨hl, -⟩
    exact hl
  refine ⟨?_, h3, hget, hall, ?_, ?_⟩
  · unfold openOp
    rw [hfind, hidx]
  · unfold releaseOp
    rw [List.get?_set_eq_of_lt (some m) hlen]
  · rw [List.set_set]
    unfold releaseOp
    rw [List.get?_set_eq_of_lt none hlen]

/-- C9 witness: open `/volumes/myvol` against `engA` with the freshly
allocated 100-slot handle table, then release handle 3 twice. -/
theorem spec_c9_witness :
    (find_from_path engA "/volumes/myvol" = .ok volB ∧ indexOfNone fdsInit 3 = some 3) ∧
    (openOp engA fdsInit "/volumes/myvol" = .ok (3, fdsInit.set 3 (some volB)) ∧
      3 ≤ 3 ∧
      fdsInit.get? 3 = some none ∧
      (∀ j, 3 ≤ j → j < 3 → ∃ y, fdsInit.get? j = some (some y)) ∧
      releaseOp (fdsInit.set 3 (some volB)) 3 = .ok (0, (fdsInit.set 3 (some volB)).set 3 none) ∧
      releaseOp ((fdsInit.set 3 (some volB)).set 3 none) 3 = .error .assertionError) :=
  ⟨⟨rfl, rfl⟩, spec_c9 engA fdsInit "/volumes/myvol" volB 3 rfl rfl⟩

/-- C10: the aggregate disk-usage result only ever maps identifiers taken from
the df payload's container section — the volume and image sections are never
consulted — so in the size preference chain of `_getattr_from_model` the
aggregate-lookup step can only supply a size for containers: a model whose own
size fields are absent or zero and whose identifier is not a df-container
identifier (as for any image or volume) reports the placeholder size
`1000` on its identifier entry. -/
theorem spec_c10 (df : DfData) (ctx : Ctx) (m : DModel) (name : String)
    (hsrf : m.sizeRootFs = none ∨ m.sizeRootFs = some 0)
    (hsz : m.size = none ∨ m.size = some 0)
    (hid : ∀ r ∈ df.containers.getD [], r.id ≠ m.id)
    (hname : strStartsWith name "." = true) :
    (∀ p ∈ get_sizes df, ∃ r ∈ df.containers.getD [], p = (r.id, r.sizeRootFs)) ∧
    (∀ vols imgs, get_sizes { df with volumes := vols, images := imgs } = get_sizes df) ∧
    lookupKey (get_sizes df) m.id = none ∧
    (getattr_from_model ctx df m name).st_size = 1000 := by
  have hlk : lookupKey (get_sizes df) m.id = none := by
    apply lookupKey_eq_none
    intro p hp
    rcases mem_get_sizes hp with ⟨r, hr, hpr⟩
    rw [hpr]
    exact hid r hr
  refine ⟨fun p hp => mem_get_sizes hp, fun vols imgs => rfl, hlk, ?_⟩
  have hchain : orDefault (pyOrN (pyOrN m.sizeRootFs m.size)
      ((lookupKey (get_sizes df) m.id).join)) 1000 = 1000 := by
    rw [hlk]
    rcases hsrf with h1 | h1 <;> rcases hsz with h2 | h2 <;>
      simp [h1, h2, pyOrN, orDefault, Option.join]
  unfold getattr_from_model
  rw [if_neg]
  · show ({ getattr_base true with
      st_ctime := ctimeOf m, st_mtime := ctimeOf m, st_atime := ctimeOf m,
      st_birthtime := some (ctimeOf m),
      st_size := orDefault (pyOrN (pyOrN m.sizeRootFs m.size)
        ((lookupKey (get_sizes df) m.id).join)) 1000 } : FileAttr).st_size = 1000
    exact hchain
  · rintro ⟨-, hdot⟩
    rw [hname] at hdot
    cases hdot

/-- C10 witness: the image `imgC10` (both size fields absent) against a df
payload whose container section names a different identifier. -/
theorem spec_c10_witness :
    ((imgC10.sizeRootFs = none ∨ imgC10.sizeRootFs = some 0) ∧
      (imgC10.size = none ∨ imgC10.size = some 0) ∧
      (∀ r ∈ dfC10.containers.getD [], r.id ≠ imgC10.id) ∧
      strStartsWith ".deadbeef" "." = true) ∧
    ((∀ p ∈ get_sizes dfC10, ∃ r ∈ dfC10.containers.getD [], p = (r.id, r.sizeRootFs)) ∧
      (∀ vols imgs, get_sizes { dfC10 with volumes := vols, images := imgs } = get_sizes dfC10) ∧
      lookupKey (get_sizes dfC10) imgC10.id = none ∧
      (getattr_from_model ctxA dfC10 imgC10 ".deadbeef").st_size = 1000) :=
  ⟨⟨Or.inl rfl, Or.inl rfl, by decide, rfl⟩,
   spec_c10 dfC10 ctxA imgC10 ".deadbeef" (Or.inl rfl) (Or.inl rfl) (by decide) rfl⟩
